import Mathlib

/-
  Shallow embedding of the guardian-agent core (src/agent.go) in Lean 4.

  Pure byte sequences are modelled as List Nat; external library services
  (known_hosts lookup, SSH key parsing, protobuf marshalling, the RNG, the
  signer set, the stream multiplexer and the SSH proxy engine) are oracles
  collected in environment structures, so that each Go function in
  src/agent.go becomes a pure Lean function of its inputs and that
  environment.  Mutation of Go pointer arguments is modelled by returning
  the updated value; writes to a connection are modelled as the list of
  packets written, in order; a Go panic is a distinguished result value.
-/

namespace GuardianAgent

/-- The authorization scope, populated from AGENT_FORWARDING_NOTICE and
EXECUTION_REQUEST messages (fields as used in src/agent.go). -/
structure Scope where
  ClientName : String
  ClientHostname : String
  ClientPort : Nat
  ServiceHostname : String
  ServiceUsername : String
deriving DecidableEq, Repr

/-- Payload of AGENT_FORWARDING_NOTICE. -/
structure AgentForwardingNoticeMsg where
  ReadableName : String
  Host : String
  Port : Nat
deriving DecidableEq, Repr

/-- Payload of EXECUTION_REQUEST. -/
structure ExecutionRequestMessage where
  User : String
  Server : String
  Command : String
deriving DecidableEq, Repr

/-- A challenge: candidate server public keys, each an opaque key blob. -/
structure Challenge where
  ServerPublicKeys : List (List Nat)
deriving DecidableEq, Repr

/-- A credential request: opaque operation bytes plus a challenge. -/
structure CredentialRequest where
  Op : List Nat
  Challenge : Challenge
deriving DecidableEq, Repr

/-- Status field of a CREDENTIAL_RESPONSE. -/
inductive CredStatus where
  | APPROVED
  | DENIED
deriving DecidableEq, Repr

/-- A credential as constructed in handleCredentialRequest/signCredential. -/
structure Credential where
  Op : List Nat
  Challenge : Challenge
  SignerNonce : List Nat
  SignatureKey : List Nat
  Signature : List Nat
  SignatureFormat : String
deriving DecidableEq, Repr

/-- A CREDENTIAL_RESPONSE message. -/
structure CredentialResponse where
  Status : CredStatus
  Credential : Option Credential
deriving DecidableEq, Repr

/-- The message-number enumeration of the control protocol, plus a
constructor for wire values outside the recognized set. -/
inductive MsgNum where
  | AGENT_FORWARDING_NOTICE
  | EXECUTION_REQUEST
  | EXECUTION_APPROVED
  | EXECUTION_DENIED
  | CREDENTIAL_REQUEST
  | CREDENTIAL_RESPONSE
  | HANDOFF_COMPLETE
  | HANDOFF_FAILED
  | AGENTC_EXTENSION
  | AGENT_SUCCESS
  | AGENT_FAILURE
  | UNKNOWN (code : Nat)
deriving DecidableEq, Repr

/-- Modelled from the spec: the numeric wire values of the message
enumeration are defined outside src/agent.go; the claims depend only on
distinctness, so stand-in values are used for the recognized names. -/
def msgNumCode : MsgNum → Nat
  | .AGENT_FORWARDING_NOTICE => 206
  | .EXECUTION_REQUEST => 1
  | .EXECUTION_APPROVED => 2
  | .EXECUTION_DENIED => 3
  | .CREDENTIAL_REQUEST => 4
  | .CREDENTIAL_RESPONSE => 5
  | .HANDOFF_COMPLETE => 10
  | .HANDOFF_FAILED => 11
  | .AGENTC_EXTENSION => 27
  | .AGENT_SUCCESS => 6
  | .AGENT_FAILURE => 30
  | .UNKNOWN code => code

/-- Body of a packet written by the agent, tagged by shape. -/
inductive PacketBody where
  | empty
  | executionDenied (reason : String)
  | handoffComplete (nextTransportByte : Nat)
  | handoffFailed (msg : String)
  | credentialResponse (resp : CredentialResponse)
deriving DecidableEq, Repr

/-- A control packet written by the agent: message number plus body. -/
abbrev Packet := MsgNum × PacketBody

/-- Go's net.JoinHostPort: host and port joined with a colon, the host
bracketed when it itself contains a colon. -/
def goJoinHostPort (host : String) (port : Nat) : String :=
  if host.contains ':' then
    "[" ++ host ++ "]:" ++ toString port
  else
    host ++ ":" ++ toString port

/-- Go's conversion uint32(i) of an integer: two's-complement truncation
to 32 bits, here Euclidean remainder into [0, 2^32). -/
def goUint32 (i : Int) : Nat :=
  (i % 4294967296).toNat

/-- External services used by checkChallenge: the known_hosts callback
built by knownhosts.New (or its construction error), and ssh.ParsePublicKey.
The callback returns true when the key matches the record for the address
(the Go callback returning nil). -/
structure CheckEnv (K : Type) where
  khNew : Except String (String → K → Bool)
  parsePublicKey : List Nat → Option K

/-- The per-candidate test of the checkChallenge loop: the blob parses as
an SSH public key and the known_hosts callback accepts it for the
endpoint. -/
def keyOK (parse : List Nat → Option K) (kh : String → K → Bool)
    (endpoint : String) (pkBytes : List Nat) : Bool :=
  match parse pkBytes with
  | some pk => kh endpoint pk
  | none => false

/-- The loop of checkChallenge: first candidate blob that parses and
matches known_hosts, in list order. -/
def findVerifiedKey (parse : List Nat → Option K) (kh : String → K → Bool)
    (endpoint : String) : List (List Nat) → Option (List Nat)
  | [] => none
  | pkBytes :: rest =>
    if keyOK parse kh endpoint pkBytes then some pkBytes
    else findVerifiedKey parse kh endpoint rest

/-- checkChallenge from src/agent.go: builds the known_hosts callback,
scans the candidate keys against the client endpoint of the scope, and on
the first match narrows the challenge to that single key.  Mutation of the
challenge is modelled by returning the (possibly updated) challenge
together with the error result. -/
def checkChallenge (env : CheckEnv K) (scope : Scope) (challenge : Challenge) :
    Challenge × Option String :=
  match env.khNew with
  | .error e => (challenge, some ("Failed to get known hosts: " ++ e))
  | .ok kh =>
    match findVerifiedKey env.parsePublicKey kh
        (goJoinHostPort scope.ClientHostname scope.ClientPort)
        challenge.ServerPublicKeys with
    | some pkBytes => ({ challenge with ServerPublicKeys := [pkBytes] }, none)
    | none => (challenge, some "Could not verify server public key against known_hosts")

/-- An SSH signer: its marshalled public key and its signing operation,
which yields a signature blob and format or an error. -/
structure Signer where
  pubKeyBlob : List Nat
  sign : List Nat → Except String (List Nat × String)

/-- External services used by signCredential: the agent's signer list
(getSigners), the RNG read for the 32-byte nonce, and proto.Marshal of a
credential. -/
structure SignEnv where
  getSigners : List Signer
  readNonce : Except String (List Nat)
  marshalCred : Credential → Except String (List Nat)

/-- Result of signCredential: the Go index-out-of-range panic on an empty
signer list, a returned error, or the fully signed credential. -/
inductive SignResult where
  | panicEmptySigners
  | err (e : String)
  | ok (cred : Credential)
deriving DecidableEq, Repr

/-- Result of signCredential together with the number of times the
signer's Sign operation was invoked. -/
structure SignOutcome where
  res : SignResult
  signCalls : Nat
deriving DecidableEq, Repr

/-- Body of signCredential once the signer has been selected: draw the
nonce, set nonce and public signature key, marshal, sign, store blob and
format. -/
def signWithSigner (env : SignEnv) (signer : Signer) (cred : Credential) :
    SignOutcome :=
  match env.readNonce with
  | .error e => ⟨.err e, 0⟩
  | .ok nonce =>
    let cred := { cred with SignerNonce := nonce, SignatureKey := signer.pubKeyBlob }
    match env.marshalCred cred with
    | .error e => ⟨.err e, 0⟩
    | .ok bytesToSign =>
      match signer.sign bytesToSign with
      | .error e => ⟨.err e, 1⟩
      | .ok (blob, format) =>
        ⟨.ok { cred with Signature := blob, SignatureFormat := format }, 1⟩

/-- signCredential from src/agent.go: takes signers[0] without an
emptiness check — on an empty signer list the Go code panics with an
index-out-of-range, modelled as the panicEmptySigners result. -/
def signCredential (env : SignEnv) (cred : Credential) : SignOutcome :=
  match env.getSigners with
  | [] => ⟨.panicEmptySigners, 0⟩
  | signer :: _ => signWithSigner env signer cred

/-- Environment of handleCredentialRequest: the checkChallenge services,
the policy verdict for this request (none = approved, some reason =
denied), the signing services, proto.Marshal of a response, and the
result of WriteControlPacket on this connection. -/
structure CredEnv (K : Type) where
  check : CheckEnv K
  policyApproval : Option String
  signEnv : SignEnv
  marshalResp : CredentialResponse → Except String (List Nat)
  writeControl : Option String

/-- writeCredentialResponse from src/agent.go: marshal the response (on
failure nothing is written and an error is returned), then write the
control packet (its failure is wrapped).  Returns the responses written
to the connection and the error result. -/
def writeCredentialResponse (env : CredEnv K) (resp : CredentialResponse) :
    List CredentialResponse × Option String :=
  match env.marshalResp resp with
  | .error e => ([], some ("Failed to marshal credential response: " ++ e))
  | .ok _ =>
    match env.writeControl with
    | some e => ([resp], some ("Failed to write credential respoinse: " ++ e))
    | none => ([resp], none)

/-- Outcome of handleCredentialRequest: the responses written on the
connection in order, the returned error, how many times the signer's Sign
operation ran, whether the Go line constructing a Credential value was
reached, and whether the call panicked (empty signer list). -/
structure CredOutcome where
  written : List CredentialResponse
  err : Option String
  signCalls : Nat
  credConstructed : Bool
  panicked : Bool
deriving DecidableEq, Repr

/-- The credential value constructed in handleCredentialRequest before
signing: the request's operation and the narrowed challenge, the
remaining fields at their Go zero values. -/
def credInit (req : CredentialRequest) (narrowed : Challenge) : Credential :=
  { Op := req.Op, Challenge := narrowed, SignerNonce := [],
    SignatureKey := [], Signature := [], SignatureFormat := "" }

/-- handleCredentialRequest from src/agent.go: verify the challenge (on
failure write DENIED and return a blocking error), consult the policy (on
denial write DENIED and return its write result), construct the
credential from the request's operation and the narrowed challenge, sign
it (on failure write DENIED and return a signing error), and finally
write APPROVED carrying the credential. -/
def handleCredentialRequest (env : CredEnv K) (scope : Scope)
    (req : CredentialRequest) : CredOutcome :=
  match checkChallenge env.check scope req.Challenge with
  | (_, some e) =>
    let w := writeCredentialResponse env ⟨.DENIED, none⟩
    { written := w.1, err := some ("request BLOCKED due to invalid challenge: " ++ e),
      signCalls := 0, credConstructed := false, panicked := false }
  | (narrowed, none) =>
    match env.policyApproval with
    | some _ =>
      let w := writeCredentialResponse env ⟨.DENIED, none⟩
      { written := w.1, err := w.2,
        signCalls := 0, credConstructed := false, panicked := false }
    | none =>
      let s := signCredential env.signEnv (credInit req narrowed)
      match s.res with
      | .panicEmptySigners =>
        { written := [], err := none,
          signCalls := s.signCalls, credConstructed := true, panicked := true }
      | .err e =>
        let w := writeCredentialResponse env ⟨.DENIED, none⟩
        { written := w.1, err := some ("Failed to sign credential: " ++ e),
          signCalls := s.signCalls, credConstructed := true, panicked := false }
      | .ok cred =>
        let w := writeCredentialResponse env ⟨.APPROVED, some cred⟩
        { written := w.1, err := w.2,
          signCalls := s.signCalls, credConstructed := true, panicked := false }

/-- Environment of proxySSH: the knownhosts.OrderHostKeyAlgs result, the
ssh.NewProxyConn result, the error delivered on the proxy's done channel
(none = clean completion), the byte counter of the metered server
connection and the proxy's buffered-from-server count at quiescence,
and the WriteControlPacket result on the control stream. -/
structure ProxyEnv where
  orderHostKeyAlgs : Except String (List String)
  newProxyConn : Except String Unit
  runResult : Option String
  bytesRead : Nat
  bufferedFromServer : Nat
  writeControl : Option String

/-- proxySSH from src/agent.go: fail fast if host key algorithms cannot
be extracted or the proxy connection cannot be built; otherwise run the
proxy and write exactly one final control message — HANDOFF_FAILED with
the error string if the run failed, HANDOFF_COMPLETE with
uint32(bytesRead - bufferedFromServer) if it succeeded.  Returns the
packets written on the control stream and the error result. -/
def proxySSH (env : ProxyEnv) : List Packet × Option String :=
  match env.orderHostKeyAlgs with
  | .error e =>
    ([], some ("Failed to extract host key algorithms from known_hosts: " ++ e))
  | .ok _ =>
    match env.newProxyConn with
    | .error e => ([], some e)
    | .ok _ =>
      match env.runResult with
      | some e =>
        ([(MsgNum.HANDOFF_FAILED, PacketBody.handoffFailed e)], env.writeControl)
      | none =>
        ([(MsgNum.HANDOFF_COMPLETE, PacketBody.handoffComplete
            (goUint32 ((env.bytesRead : Int) - (env.bufferedFromServer : Int))))],
          env.writeControl)

/-- Environment of handleExecutionRequest: the policy verdict for the
command (none = approved, some reason = denied), the yamux.Server result,
the results of the three stream accepts in order, and the proxySSH
environment. -/
structure ExecEnv where
  requestApproval : Option String
  yamuxServer : Except String Unit
  acceptControl : Except String Unit
  acceptSSHData : Except String Unit
  acceptTransport : Except String Unit
  proxyEnv : ProxyEnv

/-- handleExecutionRequest from src/agent.go: on policy denial write
EXECUTION_DENIED with the reason and return success; otherwise write
EXECUTION_APPROVED, promote the connection into three accepted streams
(any accept failure is fatal), run proxySSH, and wrap its error. -/
def handleExecutionRequest (env : ExecEnv) : List Packet × Option String :=
  match env.requestApproval with
  | some reason =>
    ([(MsgNum.EXECUTION_DENIED, PacketBody.executionDenied reason)], none)
  | none =>
    let approved : Packet := (MsgNum.EXECUTION_APPROVED, PacketBody.empty)
    match env.yamuxServer with
    | .error e => ([approved], some ("Failed to start ymux: " ++ e))
    | .ok _ =>
      match env.acceptControl with
      | .error e => ([approved], some ("Failed to accept control stream: " ++ e))
      | .ok _ =>
        match env.acceptSSHData with
        | .error e => ([approved], some ("Failed to accept data stream: " ++ e))
        | .ok _ =>
          match env.acceptTransport with
          | .error e => ([approved], some ("Failed to get transport stream: " ++ e))
          | .ok _ =>
            let p := proxySSH env.proxyEnv
            (approved :: p.1,
              match p.2 with
              | some e => some ("Proxy session finished with error: " ++ e)
              | none => none)

/-- Modelled from the spec: the guard extension type string constant is
defined outside src/agent.go; only equality against it is observable,
so a stand-in value is used. -/
def AgentGuardExtensionType : String := "agent-guard-extension-type"

/-- Modelled from the spec: the result of one ReadControlPacket call
(ReadControlPacket itself is outside src/agent.go).  EOF or a closed pipe
at a packet boundary is the eof result; a framing failure, including EOF
in the middle of a packet, is the err result; otherwise a packet with its
message number and payload is delivered. -/
inductive ReadResult where
  | ok (msgNum : MsgNum) (payload : List Nat)
  | eof
  | err (e : String)
deriving DecidableEq, Repr

/-- How HandleConnection came to stop in the model: the Go function
returned (with its error result), the modelled input trace ran out with
the loop still live, or a panic propagated out of a handler. -/
inductive ConnResult where
  | ret (err : Option String)
  | ranOut
  | panicked
deriving DecidableEq, Repr

/-- Observable outcome of HandleConnection: packets written on the
connection in order, UI Inform messages in order, and how the call
stopped. -/
structure ConnOutcome where
  written : List Packet
  informs : List String
  result : ConnResult
deriving DecidableEq, Repr

/-- Environment of HandleConnection: ssh.Unmarshal of the notice and
execution-request payloads, proto.Unmarshal of the credential request,
the extension type recovered from an AGENTC_EXTENSION payload (the
Go code ignores the unmarshal error, so this is total), the environments
of the two sub-handlers, and CredentialRequestToString for the UI text. -/
structure ConnEnv (K : Type) where
  unmarshalNotice : List Nat → Except String AgentForwardingNoticeMsg
  unmarshalExec : List Nat → Except String ExecutionRequestMessage
  unmarshalCredReq : List Nat → Except String CredentialRequest
  extensionTypeOf : List Nat → String
  credEnv : CredEnv K
  execEnv : ExecEnv
  credReqToString : Scope → CredentialRequest → String

/-- The responses written by the credential handler, as control packets. -/
def credRespPackets (rs : List CredentialResponse) : List Packet :=
  rs.map (fun r => (MsgNum.CREDENTIAL_RESPONSE, PacketBody.credentialResponse r))

/-- The message loop of HandleConnection from src/agent.go, as a function
of the scope accumulated so far and the remaining trace of
ReadControlPacket results.  EOF at a boundary returns cleanly; a read
failure returns a wrapped framing error; each recognized message is
dispatched as in the Go switch, the loop continuing with the updated
scope; an AGENTC_EXTENSION with the guard extension type is answered
AGENT_SUCCESS and the loop continues in the same state; anything else is
answered AGENT_FAILURE and terminates with an error. -/
def handleConnectionLoop (env : ConnEnv K) : Scope → List ReadResult → ConnOutcome
  | _, [] => ⟨[], [], .ranOut⟩
  | _, .eof :: _ => ⟨[], [], .ret none⟩
  | _, .err e :: _ =>
    ⟨[], [], .ret (some ("Failed to read control packet: " ++ e))⟩
  | scope, .ok msgNum payload :: rest =>
    match msgNum with
    | .AGENT_FORWARDING_NOTICE =>
      match env.unmarshalNotice payload with
      | .error e =>
        ⟨[], [], .ret (some ("Failed to unmarshal AgentForwardingNoticeMsg: " ++ e))⟩
      | .ok notice =>
        handleConnectionLoop env
          { scope with ClientName := notice.ReadableName,
                       ClientHostname := notice.Host,
                       ClientPort := notice.Port } rest
    | .EXECUTION_REQUEST =>
      match env.unmarshalExec payload with
      | .error e =>
        ⟨[], [], .ret (some ("Failed to unmarshal ExecutionRequestMessage: " ++ e))⟩
      | .ok _ =>
        let p := handleExecutionRequest env.execEnv
        ⟨p.1, [], .ret p.2⟩
    | .CREDENTIAL_REQUEST =>
      match env.unmarshalCredReq payload with
      | .error e =>
        ⟨[], [], .ret (some ("Failed to unmarshal CredentialRequest: " ++ e))⟩
      | .ok credReq =>
        let out := handleCredentialRequest env.credEnv scope credReq
        if out.panicked then
          ⟨credRespPackets out.written, [], .panicked⟩
        else
          let informsHere :=
            match out.err with
            | some e =>
              ["Error handling " ++ env.credReqToString scope credReq ++ ": " ++ e]
            | none => []
          let tail := handleConnectionLoop env scope rest
          ⟨credRespPackets out.written ++ tail.written,
            informsHere ++ tail.informs, tail.result⟩
    | .AGENTC_EXTENSION =>
      if env.extensionTypeOf payload = AgentGuardExtensionType then
        let tail := handleConnectionLoop env scope rest
        ⟨(MsgNum.AGENT_SUCCESS, PacketBody.empty) :: tail.written,
          tail.informs, tail.result⟩
      else
        ⟨[(MsgNum.AGENT_FAILURE, PacketBody.empty)], [],
          .ret (some ("Unrecognized incoming message: " ++ toString (msgNumCode msgNum)))⟩
    | other =>
      ⟨[(MsgNum.AGENT_FAILURE, PacketBody.empty)], [],
        .ret (some ("Unrecognized incoming message: " ++ toString (msgNumCode other)))⟩

/-- The zero value of the Go Scope variable declared in HandleConnection. -/
def scopeZero : Scope :=
  { ClientName := "", ClientHostname := "", ClientPort := 0,
    ServiceHostname := "", ServiceUsername := "" }

/-- HandleConnection from src/agent.go: inform the UI of the new
connection, then run the message loop starting from the zero scope. -/
def HandleConnection (env : ConnEnv K) (trace : List ReadResult) : ConnOutcome :=
  let out := handleConnectionLoop env scopeZero trace
  { out with informs := "New incoming connection" :: out.informs }

/-- writeCredentialResponse writes either nothing (marshal failure) or
exactly the given response. -/
theorem writeCredentialResponse_written (env : CredEnv K) (resp : CredentialResponse) :
    (writeCredentialResponse env resp).1 = [] ∨
    (writeCredentialResponse env resp).1 = [resp] := by
  unfold writeCredentialResponse
  cases env.marshalResp resp with
  | error e => simp
  | ok bs => cases env.writeControl <;> simp

/-- If the marshalling and the write both succeed, writeCredentialResponse
writes exactly the response and returns no error. -/
theorem writeCredentialResponse_ok (env : CredEnv K) (resp : CredentialResponse)
    (bs : List Nat) (hm : env.marshalResp resp = .ok bs)
    (hw : env.writeControl = none) :
    writeCredentialResponse env resp = ([resp], none) := by
  unfold writeCredentialResponse
  rw [hm, hw]

/-- A successful findVerifiedKey returns the first candidate satisfying
keyOK: the list splits around it with every earlier candidate failing. -/
theorem findVerifiedKey_spec (parse : List Nat → Option K) (kh : String → K → Bool)
    (ep : String) :
    ∀ l b, findVerifiedKey parse kh ep l = some b →
      ∃ pre post, l = pre ++ b :: post ∧ keyOK parse kh ep b = true ∧
        ∀ a ∈ pre, keyOK parse kh ep a = false := by
  intro l
  induction l with
  | nil => intro b h; simp [findVerifiedKey] at h
  | cons x rest ih =>
    intro b h
    rw [findVerifiedKey] at h
    by_cases hx : keyOK parse kh ep x = true
    · simp [hx] at h
      subst h
      exact ⟨[], rest, rfl, hx, by simp⟩
    · simp [hx] at h
      obtain ⟨pre, post, hl, hb, hpre⟩ := ih b h
      refine ⟨x :: pre, post, by simp [hl], hb, ?_⟩
      intro a ha
      rcases List.mem_cons.mp ha with rfl | ha
      · simpa using hx
      · exact hpre a ha

/-- findVerifiedKey fails exactly when no candidate satisfies keyOK. -/
theorem findVerifiedKey_eq_none (parse : List Nat → Option K) (kh : String → K → Bool)
    (ep : String) :
    ∀ l, findVerifiedKey parse kh ep l = none ↔
      ∀ b ∈ l, keyOK parse kh ep b = false := by
  intro l
  induction l with
  | nil => simp [findVerifiedKey]
  | cons x rest ih =>
    rw [findVerifiedKey]
    by_cases hx : keyOK parse kh ep x = true
    · simp [hx]
    · simp [hx, ih]

/-- A skipped or unmatched head does not stop the scan: findVerifiedKey
on a cons whose head fails keyOK equals findVerifiedKey on the tail. -/
theorem findVerifiedKey_cons_of_not (parse : List Nat → Option K)
    (kh : String → K → Bool) (ep : String) (x : List Nat) (rest : List (List Nat))
    (hx : keyOK parse kh ep x = false) :
    findVerifiedKey parse kh ep (x :: rest) = findVerifiedKey parse kh ep rest := by
  rw [findVerifiedKey]
  simp [hx]

/-- A successful checkChallenge exposes the known_hosts callback, the
matched key, and the narrowing of the challenge to that single key. -/
theorem checkChallenge_ok (env : CheckEnv K) (scope : Scope) (chal : Challenge)
    (h : (checkChallenge env scope chal).2 = none) :
    ∃ kh b, env.khNew = .ok kh ∧
      findVerifiedKey env.parsePublicKey kh
        (goJoinHostPort scope.ClientHostname scope.ClientPort)
        chal.ServerPublicKeys = some b ∧
      (checkChallenge env scope chal).1 = { chal with ServerPublicKeys := [b] } := by
  cases hk : env.khNew with
  | error e => simp [checkChallenge, hk] at h
  | ok kh =>
    cases hf : findVerifiedKey env.parsePublicKey kh
        (goJoinHostPort scope.ClientHostname scope.ClientPort)
        chal.ServerPublicKeys with
    | none => simp [checkChallenge, hk, hf] at h
    | some b => exact ⟨kh, b, rfl, hf, by simp [checkChallenge, hk, hf]⟩

/-- A successfully signed credential keeps the challenge and operation of
the input credential and carries the signer's public key blob. -/
theorem signWithSigner_ok_fields (env : SignEnv) (s : Signer) (cred c : Credential)
    (h : (signWithSigner env s cred).res = .ok c) :
    c.Challenge = cred.Challenge ∧ c.Op = cred.Op ∧ c.SignatureKey = s.pubKeyBlob := by
  cases hn : env.readNonce with
  | error e => simp [signWithSigner, hn] at h
  | ok nonce =>
    cases hm : env.marshalCred
        { cred with SignerNonce := nonce, SignatureKey := s.pubKeyBlob } with
    | error e => simp [signWithSigner, hn, hm] at h
    | ok bytesToSign =>
      cases hs : s.sign bytesToSign with
      | error e => simp [signWithSigner, hn, hm, hs] at h
      | ok pair =>
        simp [signWithSigner, hn, hm, hs] at h
        subst h
        simp

/-- signCredential with a non-empty signer list is signWithSigner on the
head signer. -/
theorem signCredential_cons (env : SignEnv) (s : Signer) (rest : List Signer)
    (cred : Credential) (hs : env.getSigners = s :: rest) :
    signCredential env cred = signWithSigner env s cred := by
  unfold signCredential
  rw [hs]

/-- A successful signCredential keeps the challenge and operation of the
input credential. -/
theorem signCredential_ok_fields (env : SignEnv) (cred c : Credential)
    (h : (signCredential env cred).res = .ok c) :
    c.Challenge = cred.Challenge ∧ c.Op = cred.Op := by
  unfold signCredential at h
  cases hs : env.getSigners with
  | nil => rw [hs] at h; simp at h
  | cons s rest =>
    rw [hs] at h
    have hf := signWithSigner_ok_fields env s cred c h
    exact ⟨hf.1, hf.2.1⟩

/-- Any response found among the writes of writeCredentialResponse is the
response it was asked to write. -/
theorem mem_writeCredentialResponse (env : CredEnv K) (resp r : CredentialResponse)
    (hr : r ∈ (writeCredentialResponse env resp).1) : r = resp := by
  rcases writeCredentialResponse_written env resp with hw | hw
  · rw [hw] at hr
    simp at hr
  · rw [hw] at hr
    simpa using hr

/-- C1: in every successful proxy run, the HANDOFF_COMPLETE message
written on the control stream carries next_transport_byte equal to the
total bytes read from the server connection minus the bytes read from the
server but still buffered at quiescence (the difference being
representable in the u32 wire field). -/
theorem proxySSH_next_transport_byte (env : ProxyEnv) (algs : List String)
    (h1 : env.orderHostKeyAlgs = Except.ok algs)
    (h2 : env.newProxyConn = Except.ok ())
    (h3 : env.runResult = none)
    (h4 : env.bufferedFromServer ≤ env.bytesRead)
    (h5 : env.bytesRead - env.bufferedFromServer < 4294967296) :
    (proxySSH env).1 =
      [(MsgNum.HANDOFF_COMPLETE,
        PacketBody.handoffComplete (env.bytesRead - env.bufferedFromServer))] := by
  simp only [proxySSH, h1, h2, h3]
  have hgo : goUint32 ((env.bytesRead : Int) - (env.bufferedFromServer : Int))
      = env.bytesRead - env.bufferedFromServer := by
    unfold goUint32
    omega
  rw [hgo]

/-- C1 witness: a concrete successful run with 42 bytes read and 7 still
buffered hands off at byte 35. -/
theorem proxySSH_next_transport_byte_witness :
    (proxySSH ⟨Except.ok [], Except.ok (), none, 42, 7, none⟩).1 =
      [(MsgNum.HANDOFF_COMPLETE, PacketBody.handoffComplete 35)] :=
  proxySSH_next_transport_byte ⟨Except.ok [], Except.ok (), none, 42, 7, none⟩ []
    rfl rfl rfl (by decide) (by decide)

/-- C4: once the proxy has been built and run, exactly one of
HANDOFF_COMPLETE and HANDOFF_FAILED is written on the control stream:
HANDOFF_COMPLETE exactly when the run returned no error, HANDOFF_FAILED
carrying the error string exactly when it did; and HANDOFF_COMPLETE is
never written (in any proxySSH call) when the run returned an error. -/
theorem proxySSH_handoff_exclusive (env : ProxyEnv) (algs : List String)
    (h1 : env.orderHostKeyAlgs = Except.ok algs)
    (h2 : env.newProxyConn = Except.ok ()) :
    ((env.runResult = none →
        ∃ n, (proxySSH env).1 =
          [(MsgNum.HANDOFF_COMPLETE, PacketBody.handoffComplete n)]) ∧
      (∀ e, env.runResult = some e →
        (proxySSH env).1 =
          [(MsgNum.HANDOFF_FAILED, PacketBody.handoffFailed e)]) ∧
      (∀ env2 : ProxyEnv, ∀ e n, env2.runResult = some e →
        (MsgNum.HANDOFF_COMPLETE, PacketBody.handoffComplete n) ∉ (proxySSH env2).1)) := by
  refine ⟨?_, ?_, ?_⟩
  · intro h3
    refine ⟨goUint32 ((env.bytesRead : Int) - (env.bufferedFromServer : Int)), ?_⟩
    simp [proxySSH, h1, h2, h3]
  · intro e h3
    simp [proxySSH, h1, h2, h3]
  · intro env2 e n h3
    unfold proxySSH
    cases ha : env2.orderHostKeyAlgs with
    | error _ => simp
    | ok _ =>
      cases hc : env2.newProxyConn with
      | error _ => simp
      | ok _ => simp [h3]

/-- C4 witness: a concrete failed run writes exactly HANDOFF_FAILED with
the error string. -/
theorem proxySSH_handoff_exclusive_witness :
    (proxySSH ⟨Except.ok [], Except.ok (), some "handshake failed", 0, 0, none⟩).1 =
      [(MsgNum.HANDOFF_FAILED, PacketBody.handoffFailed "handshake failed")] :=
  (proxySSH_handoff_exclusive
      ⟨Except.ok [], Except.ok (), some "handshake failed", 0, 0, none⟩ []
      rfl rfl).2.1 "handshake failed" rfl

/-- Concrete signing environment with an empty signer list. -/
def signEnvEmpty : SignEnv :=
  ⟨[], Except.ok (List.replicate 32 0), fun _ => Except.ok []⟩

/-- Concrete blank credential used to exercise signCredential. -/
def credBlank : Credential := ⟨[], ⟨[]⟩, [], [], [], ""⟩

/-- C6 counterexample: with an empty signer list, signCredential reaches
the unchecked signers[0] access and panics; it does not return an error
that could be surfaced to the UI. -/
theorem signCredential_empty_panics :
    (signCredential signEnvEmpty credBlank).res = SignResult.panicEmptySigners ∧
    ∀ e, (signCredential signEnvEmpty credBlank).res ≠ SignResult.err e := by
  refine ⟨rfl, ?_⟩
  intro e h
  exact SignResult.noConfusion
    ((rfl : (signCredential signEnvEmpty credBlank).res
        = SignResult.panicEmptySigners).symm.trans h)

/-- C6 (amended): credential signing always uses the first element of the
agent's signer list; when the signer list is empty, the unchecked
signers[0] access panics (a crash), rather than producing an error result
surfaced to the UI. -/
theorem signCredential_first_signer (env : SignEnv) (cred : Credential)
    (s : Signer) (rest : List Signer) (hs : env.getSigners = s :: rest) :
    signCredential env cred = signWithSigner env s cred ∧
    (∀ c, (signCredential env cred).res = SignResult.ok c →
      c.SignatureKey = s.pubKeyBlob) ∧
    (∀ env2 : SignEnv, env2.getSigners = [] →
      ∀ cred2, (signCredential env2 cred2).res = SignResult.panicEmptySigners) := by
  refine ⟨signCredential_cons env s rest cred hs, ?_, ?_⟩
  · intro c hc
    rw [signCredential_cons env s rest cred hs] at hc
    exact (signWithSigner_ok_fields env s cred c hc).2.2
  · intro env2 h2 cred2
    unfold signCredential
    rw [h2]

/-- Concrete one-signer environment for the C6 witness. -/
def signerOne : Signer := ⟨[1, 2], fun _ => Except.ok ([9], "ssh-ed25519")⟩

/-- Concrete signing environment holding exactly signerOne. -/
def signEnvOne : SignEnv := ⟨[signerOne], Except.ok [0], fun _ => Except.ok []⟩

/-- Concrete blank credential for the C6 witness. -/
def credBlankW : Credential := ⟨[], ⟨[]⟩, [], [], [], ""⟩

/-- C6 witness: with one signer in the list, signCredential is signing
with exactly that signer. -/
theorem signCredential_first_signer_witness :
    signCredential signEnvOne credBlankW = signWithSigner signEnvOne signerOne credBlankW :=
  (signCredential_first_signer signEnvOne credBlankW signerOne [] rfl).1

/-- C5: policy denial is not an error at the protocol layer: a denied
execution request yields EXECUTION_DENIED with the reason and a nil
return; a denied credential request yields CREDENTIAL_RESPONSE DENIED
and a nil return (the response write succeeding). -/
theorem policy_denial_not_error (eenv : ExecEnv) (cenv : CredEnv K)
    (scope : Scope) (req : CredentialRequest) (reason d : String) (bs : List Nat)
    (hexec : eenv.requestApproval = some reason)
    (hchal : (checkChallenge cenv.check scope req.Challenge).2 = none)
    (hpol : cenv.policyApproval = some d)
    (hmar : cenv.marshalResp ⟨CredStatus.DENIED, none⟩ = Except.ok bs)
    (hwr : cenv.writeControl = none) :
    handleExecutionRequest eenv =
      ([(MsgNum.EXECUTION_DENIED, PacketBody.executionDenied reason)], none) ∧
    (handleCredentialRequest cenv scope req).written = [⟨CredStatus.DENIED, none⟩] ∧
    (handleCredentialRequest cenv scope req).err = none := by
  have hw := writeCredentialResponse_ok cenv ⟨CredStatus.DENIED, none⟩ bs hmar hwr
  cases hcc : checkChallenge cenv.check scope req.Challenge with
  | mk narrowed oerr =>
    have hoe : oerr = none := by rw [hcc] at hchal; exact hchal
    subst hoe
    refine ⟨by simp [handleExecutionRequest, hexec], ?_, ?_⟩
    · simp [handleCredentialRequest, hcc, hpol, hw]
    · simp [handleCredentialRequest, hcc, hpol, hw]

/-- Concrete credential environment for the C5 witness: the single
candidate key parses and matches, the policy denies. -/
def credEnvC5 : CredEnv Nat :=
  ⟨⟨Except.ok (fun _ k => k == 7), fun l => l.head?⟩, some "policy denied",
    ⟨[], Except.ok [], fun _ => Except.ok []⟩, fun _ => Except.ok [], none⟩

/-- Concrete execution environment for the C5 witness: the policy denies. -/
def execEnvC5 : ExecEnv :=
  ⟨some "denied", Except.ok (), Except.ok (), Except.ok (), Except.ok (),
    ⟨Except.ok [], Except.ok (), none, 0, 0, none⟩⟩

/-- Concrete scope for the C5 witness. -/
def scopeC5 : Scope := ⟨"", "h", 1, "", ""⟩

/-- Concrete credential request for the C5 witness. -/
def reqC5 : CredentialRequest := ⟨[], ⟨[[7]]⟩⟩

/-- C5 witness: concrete denials produce the denial replies and nil
returns. -/
theorem policy_denial_not_error_witness :
    handleExecutionRequest execEnvC5 =
      ([(MsgNum.EXECUTION_DENIED, PacketBody.executionDenied "denied")], none) ∧
    (handleCredentialRequest credEnvC5 scopeC5 reqC5).written =
      [⟨CredStatus.DENIED, none⟩] ∧
    (handleCredentialRequest credEnvC5 scopeC5 reqC5).err = none :=
  policy_denial_not_error execEnvC5 credEnvC5 scopeC5 reqC5 "denied" "policy denied" []
    rfl (by decide) rfl rfl rfl

/-- C3: on every path where challenge verification fails or the policy
denies, no Credential is constructed, the signer is never invoked, and
only credential-free DENIED responses are written; conversely a
constructed credential implies both challenge verification and policy
approval succeeded. -/
theorem no_signing_without_approval (env : CredEnv K) (scope : Scope)
    (req : CredentialRequest) :
    ((∃ e, (checkChallenge env.check scope req.Challenge).2 = some e) ∨
        (∃ d, env.policyApproval = some d) →
      (handleCredentialRequest env scope req).signCalls = 0 ∧
      (handleCredentialRequest env scope req).credConstructed = false ∧
      ∀ r ∈ (handleCredentialRequest env scope req).written,
        r.Status = CredStatus.DENIED ∧ r.Credential = none) ∧
    ((handleCredentialRequest env scope req).credConstructed = true →
      (checkChallenge env.check scope req.Challenge).2 = none ∧
      env.policyApproval = none) := by
  cases hcc : checkChallenge env.check scope req.Challenge with
  | mk narrowed oerr =>
    cases oerr with
    | some e =>
      constructor
      · intro _
        refine ⟨by simp [handleCredentialRequest, hcc], by simp [handleCredentialRequest, hcc], ?_⟩
        intro r hr
        simp only [handleCredentialRequest, hcc] at hr
        have hre := mem_writeCredentialResponse env _ r hr
        rw [hre]
        exact ⟨rfl, rfl⟩
      · intro hcon
        exfalso
        simp [handleCredentialRequest, hcc] at hcon
    | none =>
      cases hpa : env.policyApproval with
      | some d =>
        constructor
        · intro _
          refine ⟨by simp [handleCredentialRequest, hcc, hpa],
            by simp [handleCredentialRequest, hcc, hpa], ?_⟩
          intro r hr
          simp only [handleCredentialRequest, hcc, hpa] at hr
          have hre := mem_writeCredentialResponse env _ r hr
          rw [hre]
          exact ⟨rfl, rfl⟩
        · intro hcon
          exfalso
          simp [handleCredentialRequest, hcc, hpa] at hcon
      | none =>
        constructor
        · intro h
          exfalso
          rcases h with ⟨e, he⟩ | ⟨d, hd⟩
          · simp at he
          · simp at hd
        · intro _
          exact ⟨rfl, rfl⟩

/-- Concrete credential environment for the C3 witness: no candidate key
parses, so challenge verification fails. -/
def credEnvC3 : CredEnv Nat :=
  ⟨⟨Except.ok (fun _ _ => false), fun _ => none⟩, none,
    ⟨[], Except.ok [], fun _ => Except.ok []⟩, fun _ => Except.ok [], none⟩

/-- Concrete scope for the C3 witness. -/
def scopeC3 : Scope := ⟨"", "h", 1, "", ""⟩

/-- Concrete credential request for the C3 witness. -/
def reqC3 : CredentialRequest := ⟨[], ⟨[[1]]⟩⟩

/-- C3 witness: a failing challenge yields zero signer invocations and no
constructed credential. -/
theorem no_signing_without_approval_witness :
    (handleCredentialRequest credEnvC3 scopeC3 reqC3).signCalls = 0 ∧
    (handleCredentialRequest credEnvC3 scopeC3 reqC3).credConstructed = false := by
  have h := (no_signing_without_approval credEnvC3 scopeC3 reqC3).1
    (Or.inl ⟨"Could not verify server public key against known_hosts", by decide⟩)
  exact ⟨h.1, h.2.1⟩

/-- C2: any APPROVED response written by handleCredentialRequest carries
a credential whose challenge holds exactly one key; that key occurs in
the original request, it parses and matches the known_hosts record for
the client endpoint of the scope, and every earlier candidate fails that
test (it is the first match). -/
theorem credential_challenge_narrowing (env : CredEnv K) (scope : Scope)
    (req : CredentialRequest) (r : CredentialResponse) (c : Credential)
    (hr : r ∈ (handleCredentialRequest env scope req).written)
    (hst : r.Status = CredStatus.APPROVED)
    (hc : r.Credential = some c) :
    ∃ kh, env.check.khNew = Except.ok kh ∧
    ∃ b pre post,
      c.Challenge.ServerPublicKeys = [b] ∧
      b ∈ req.Challenge.ServerPublicKeys ∧
      req.Challenge.ServerPublicKeys = pre ++ b :: post ∧
      keyOK env.check.parsePublicKey kh
        (goJoinHostPort scope.ClientHostname scope.ClientPort) b = true ∧
      ∀ a ∈ pre, keyOK env.check.parsePublicKey kh
        (goJoinHostPort scope.ClientHostname scope.ClientPort) a = false := by
  cases hcc : checkChallenge env.check scope req.Challenge with
  | mk narrowed oerr =>
    cases oerr with
    | some e =>
      exfalso
      simp only [handleCredentialRequest, hcc] at hr
      have hre := mem_writeCredentialResponse env _ r hr
      rw [hre] at hst
      simp at hst
    | none =>
      cases hpa : env.policyApproval with
      | some d =>
        exfalso
        simp only [handleCredentialRequest, hcc, hpa] at hr
        have hre := mem_writeCredentialResponse env _ r hr
        rw [hre] at hst
        simp at hst
      | none =>
        cases hsr : (signCredential env.signEnv (credInit req narrowed)).res with
        | panicEmptySigners =>
          exfalso
          simp only [handleCredentialRequest, hcc, hpa, hsr] at hr
          simp at hr
        | err e =>
          exfalso
          simp only [handleCredentialRequest, hcc, hpa, hsr] at hr
          have hre := mem_writeCredentialResponse env _ r hr
          rw [hre] at hst
          simp at hst
        | ok cred =>
          simp only [handleCredentialRequest, hcc, hpa, hsr] at hr
          have hre := mem_writeCredentialResponse env _ r hr
          rw [hre] at hc
          simp at hc
          subst hc
          obtain ⟨kh, b, hkh, hfind, hnarrow⟩ :=
            checkChallenge_ok env.check scope req.Challenge (by rw [hcc])
          rw [hcc] at hnarrow
          simp at hnarrow
          have hfields := signCredential_ok_fields env.signEnv (credInit req narrowed) cred hsr
          obtain ⟨pre, post, hsplit, hkey, hpre⟩ :=
            findVerifiedKey_spec env.check.parsePublicKey kh
              (goJoinHostPort scope.ClientHostname scope.ClientPort)
              req.Challenge.ServerPublicKeys b hfind
          refine ⟨kh, hkh, b, pre, post, ?_, ?_, hsplit, hkey, hpre⟩
          · rw [hfields.1]
            show narrowed.ServerPublicKeys = [b]
            rw [hnarrow]
          · rw [hsplit]
            simp

/-- Concrete credential environment for the C2 witness: keys are parsed
as their first byte and the known_hosts record accepts the value 7. -/
def credEnvC2 : CredEnv Nat :=
  ⟨⟨Except.ok (fun _ k => k == 7), fun l => l.head?⟩, none,
    ⟨[⟨[3], fun _ => Except.ok ([5], "fmt")⟩], Except.ok [0], fun _ => Except.ok []⟩,
    fun _ => Except.ok [], none⟩

/-- Concrete scope for the C2 witness. -/
def scopeC2 : Scope := ⟨"laptop", "h", 1, "", ""⟩

/-- Concrete credential request for the C2 witness: the first candidate
does not match known_hosts, the second does. -/
def reqC2 : CredentialRequest := ⟨[1], ⟨[[9], [7, 7]]⟩⟩

/-- The credential the C2 witness run issues. -/
def credC2 : Credential := ⟨[1], ⟨[[7, 7]]⟩, [0], [3], [5], "fmt"⟩

/-- C2 witness: a concrete approved run narrows the challenge to the
single matching key from the original request. -/
theorem credential_challenge_narrowing_witness :
    ∃ kh, credEnvC2.check.khNew = Except.ok kh ∧
    ∃ b pre post,
      credC2.Challenge.ServerPublicKeys = [b] ∧
      b ∈ reqC2.Challenge.ServerPublicKeys ∧
      reqC2.Challenge.ServerPublicKeys = pre ++ b :: post ∧
      keyOK credEnvC2.check.parsePublicKey kh
        (goJoinHostPort scopeC2.ClientHostname scopeC2.ClientPort) b = true ∧
      ∀ a ∈ pre, keyOK credEnvC2.check.parsePublicKey kh
        (goJoinHostPort scopeC2.ClientHostname scopeC2.ClientPort) a = false :=
  credential_challenge_narrowing credEnvC2 scopeC2 reqC2
    ⟨CredStatus.APPROVED, some credC2⟩ credC2 (by decide) (by decide) (by decide)

/-- C7: any signing failure during credential construction results in a
DENIED response written to the connection and a non-nil returned error;
no APPROVED response is ever written under a signing failure; and the
connection loop surfaces the returned error to the UI and continues. -/
theorem signing_failure_denies (env : CredEnv K) (scope : Scope)
    (req : CredentialRequest) (e : String) (bs : List Nat)
    (hchal : (checkChallenge env.check scope req.Challenge).2 = none)
    (hpol : env.policyApproval = none)
    (hsign : (signCredential env.signEnv
        (credInit req (checkChallenge env.check scope req.Challenge).1)).res
      = SignResult.err e)
    (hmar : env.marshalResp ⟨CredStatus.DENIED, none⟩ = Except.ok bs)
    (hwr : env.writeControl = none) :
    (handleCredentialRequest env scope req).written = [⟨CredStatus.DENIED, none⟩] ∧
    (handleCredentialRequest env scope req).err =
      some ("Failed to sign credential: " ++ e) ∧
    (∀ (env2 : CredEnv K) (scope2 : Scope) (req2 : CredentialRequest) (e2 : String),
      (signCredential env2.signEnv
          (credInit req2 (checkChallenge env2.check scope2 req2.Challenge).1)).res
        = SignResult.err e2 →
      ∀ r ∈ (handleCredentialRequest env2 scope2 req2).written,
        r.Status ≠ CredStatus.APPROVED) ∧
    (∀ (cenv : ConnEnv K) (payload : List Nat) (rest : List ReadResult),
      cenv.credEnv = env →
      cenv.unmarshalCredReq payload = Except.ok req →
      ("Error handling " ++ cenv.credReqToString scope req ++ ": " ++
          ("Failed to sign credential: " ++ e)) ∈
        (handleConnectionLoop cenv scope
          (ReadResult.ok MsgNum.CREDENTIAL_REQUEST payload :: rest)).informs) := by
  have hw := writeCredentialResponse_ok env ⟨CredStatus.DENIED, none⟩ bs hmar hwr
  cases hcc : checkChallenge env.check scope req.Challenge with
  | mk narrowed oerr =>
    have hoe : oerr = none := by rw [hcc] at hchal; exact hchal
    subst hoe
    have hsr : (signCredential env.signEnv (credInit req narrowed)).res
        = SignResult.err e := by
      rw [hcc] at hsign
      exact hsign
    have hfull : handleCredentialRequest env scope req =
        { written := [⟨CredStatus.DENIED, none⟩],
          err := some ("Failed to sign credential: " ++ e),
          signCalls := (signCredential env.signEnv (credInit req narrowed)).signCalls,
          credConstructed := true, panicked := false } := by
      simp [handleCredentialRequest, hcc, hpol, hsr, hw]
    refine ⟨by rw [hfull], by rw [hfull], ?_, ?_⟩
    · intro env2 scope2 req2 e2 hs2 r hr
      cases hcc2 : checkChallenge env2.check scope2 req2.Challenge with
      | mk narrowed2 oerr2 =>
        cases oerr2 with
        | some e3 =>
          simp only [handleCredentialRequest, hcc2] at hr
          have hre := mem_writeCredentialResponse env2 _ r hr
          rw [hre]
          simp
        | none =>
          cases hpa2 : env2.policyApproval with
          | some d =>
            simp only [handleCredentialRequest, hcc2, hpa2] at hr
            have hre := mem_writeCredentialResponse env2 _ r hr
            rw [hre]
            simp
          | none =>
            have hs2x : (signCredential env2.signEnv (credInit req2 narrowed2)).res
                = SignResult.err e2 := by
              rw [hcc2] at hs2
              exact hs2
            simp only [handleCredentialRequest, hcc2, hpa2, hs2x] at hr
            have hre := mem_writeCredentialResponse env2 _ r hr
            rw [hre]
            simp
    · intro cenv payload rest hce hunm
      simp only [handleConnectionLoop, hunm, hce, hfull]
      simp

/-- Concrete credential environment for the C7 witness: the challenge
verifies, the policy approves, but the signer refuses to sign. -/
def credEnvC7 : CredEnv Nat :=
  ⟨⟨Except.ok (fun _ k => k == 7), fun l => l.head?⟩, none,
    ⟨[⟨[3], fun _ => Except.error "no sign"⟩], Except.ok [0], fun _ => Except.ok []⟩,
    fun _ => Except.ok [], none⟩

/-- Concrete scope for the C7 witness. -/
def scopeC7 : Scope := ⟨"", "h", 1, "", ""⟩

/-- Concrete credential request for the C7 witness. -/
def reqC7 : CredentialRequest := ⟨[], ⟨[[7]]⟩⟩

/-- C7 witness: a concrete signing failure writes DENIED and returns the
signing error. -/
theorem signing_failure_denies_witness :
    (handleCredentialRequest credEnvC7 scopeC7 reqC7).written =
      [⟨CredStatus.DENIED, none⟩] ∧
    (handleCredentialRequest credEnvC7 scopeC7 reqC7).err =
      some ("Failed to sign credential: " ++ "no sign") := by
  have h := signing_failure_denies credEnvC7 scopeC7 reqC7 "no sign" []
    (by decide) rfl (by decide) rfl rfl
  exact ⟨h.1, h.2.1⟩

/-- C8: an AGENTC_EXTENSION with the guard extension type is answered
AGENT_SUCCESS and the loop continues in the same state; an
AGENTC_EXTENSION with any other type, and any message number outside the
recognized enumeration, is answered AGENT_FAILURE and terminates the
connection with an error. -/
theorem extension_dispatch (env : ConnEnv K) (scope : Scope)
    (payload : List Nat) (rest : List ReadResult) (n : Nat) :
    ((env.extensionTypeOf payload = AgentGuardExtensionType →
        handleConnectionLoop env scope
            (ReadResult.ok MsgNum.AGENTC_EXTENSION payload :: rest) =
          ⟨(MsgNum.AGENT_SUCCESS, PacketBody.empty) ::
              (handleConnectionLoop env scope rest).written,
            (handleConnectionLoop env scope rest).informs,
            (handleConnectionLoop env scope rest).result⟩) ∧
      (env.extensionTypeOf payload ≠ AgentGuardExtensionType →
        handleConnectionLoop env scope
            (ReadResult.ok MsgNum.AGENTC_EXTENSION payload :: rest) =
          ⟨[(MsgNum.AGENT_FAILURE, PacketBody.empty)], [],
            ConnResult.ret (some ("Unrecognized incoming message: " ++
              toString (msgNumCode MsgNum.AGENTC_EXTENSION)))⟩) ∧
      handleConnectionLoop env scope
          (ReadResult.ok (MsgNum.UNKNOWN n) payload :: rest) =
        ⟨[(MsgNum.AGENT_FAILURE, PacketBody.empty)], [],
          ConnResult.ret (some ("Unrecognized incoming message: " ++ toString n))⟩) := by
  refine ⟨?_, ?_, ?_⟩
  · intro h
    simp [handleConnectionLoop, h]
  · intro h
    simp [handleConnectionLoop, h]
  · simp [handleConnectionLoop, msgNumCode]

/-- Concrete connection environment for the C8 witness: every payload
carries the guard extension type. -/
def connEnvC8 : ConnEnv Nat :=
  ⟨fun _ => Except.error "x", fun _ => Except.error "x", fun _ => Except.error "x",
    fun _ => AgentGuardExtensionType,
    ⟨⟨Except.error "e", fun _ => none⟩, none,
      ⟨[], Except.error "e", fun _ => Except.error "e"⟩,
      fun _ => Except.error "e", none⟩,
    ⟨none, Except.error "e", Except.error "e", Except.error "e", Except.error "e",
      ⟨Except.error "e", Except.error "e", none, 0, 0, none⟩⟩,
    fun _ _ => ""⟩

/-- C8 witness: a concrete guard-extension query is answered
AGENT_SUCCESS and the loop keeps running. -/
theorem extension_dispatch_witness :
    handleConnectionLoop connEnvC8 scopeZero
        [ReadResult.ok MsgNum.AGENTC_EXTENSION []] =
      ⟨[(MsgNum.AGENT_SUCCESS, PacketBody.empty)], [], ConnResult.ranOut⟩ := by
  have h := (extension_dispatch connEnvC8 scopeZero [] [] 0).1 rfl
  simpa [handleConnectionLoop] using h

/-- C9: EOF (or a closed pipe) at a control-packet boundary makes
HandleConnection return cleanly with no error, at any point of the loop
and in particular at connection start; a read failure — which is how
EOF in the middle of a control packet surfaces — terminates the
connection with a wrapped framing error. -/
theorem eof_clean_return (env : ConnEnv K) (scope : Scope)
    (rest : List ReadResult) (e : String) :
    handleConnectionLoop env scope (ReadResult.eof :: rest) =
      ⟨[], [], ConnResult.ret none⟩ ∧
    handleConnectionLoop env scope (ReadResult.err e :: rest) =
      ⟨[], [], ConnResult.ret (some ("Failed to read control packet: " ++ e))⟩ ∧
    (HandleConnection env (ReadResult.eof :: rest)).result = ConnResult.ret none := by
  refine ⟨rfl, rfl, rfl⟩

/-- C10: during challenge verification a candidate key blob that fails to
parse is skipped silently and later candidates are still tested;
verification fails exactly when no candidate both parses and matches
known_hosts; and on failure the challenge's key list is left unmodified. -/
theorem challenge_parse_skip (env : CheckEnv K) (scope : Scope) (chal : Challenge)
    (kh : String → K → Bool) (x : List Nat) (rest : List (List Nat))
    (hkh : env.khNew = Except.ok kh) :
    ((env.parsePublicKey x = none →
        findVerifiedKey env.parsePublicKey kh
          (goJoinHostPort scope.ClientHostname scope.ClientPort) (x :: rest) =
          findVerifiedKey env.parsePublicKey kh
            (goJoinHostPort scope.ClientHostname scope.ClientPort) rest) ∧
      ((checkChallenge env scope chal).2.isSome = true ↔
        ∀ b ∈ chal.ServerPublicKeys,
          keyOK env.parsePublicKey kh
            (goJoinHostPort scope.ClientHostname scope.ClientPort) b = false) ∧
      ((checkChallenge env scope chal).2.isSome = true →
        (checkChallenge env scope chal).1 = chal)) := by
  have hiff : (checkChallenge env scope chal).2.isSome = true ↔
      findVerifiedKey env.parsePublicKey kh
        (goJoinHostPort scope.ClientHostname scope.ClientPort)
        chal.ServerPublicKeys = none := by
    cases hf : findVerifiedKey env.parsePublicKey kh
        (goJoinHostPort scope.ClientHostname scope.ClientPort)
        chal.ServerPublicKeys with
    | some b => simp [checkChallenge, hkh, hf]
    | none => simp [checkChallenge, hkh, hf]
  refine ⟨?_, ?_, ?_⟩
  · intro hp
    apply findVerifiedKey_cons_of_not
    simp [keyOK, hp]
  · exact hiff.trans (findVerifiedKey_eq_none env.parsePublicKey kh
      (goJoinHostPort scope.ClientHostname scope.ClientPort) chal.ServerPublicKeys)
  · intro hs
    have hf := hiff.mp hs
    simp [checkChallenge, hkh, hf]

/-- Concrete checkChallenge environment for the C10 witness. -/
def checkEnvC10 : CheckEnv Nat := ⟨Except.ok (fun _ k => k == 7), fun l => l.head?⟩

/-- Concrete scope for the C10 witness. -/
def scopeC10 : Scope := ⟨"", "h", 1, "", ""⟩

/-- Concrete challenge for the C10 witness: the first candidate fails to
parse, the second parses but does not match known_hosts. -/
def chalC10 : Challenge := ⟨[[], [9]]⟩

/-- C10 witness: the unparsable head is skipped, and the failing
verification leaves the challenge unmodified. -/
theorem challenge_parse_skip_witness :
    findVerifiedKey checkEnvC10.parsePublicKey (fun _ k => k == 7)
        (goJoinHostPort scopeC10.ClientHostname scopeC10.ClientPort) ([] :: [[9]]) =
      findVerifiedKey checkEnvC10.parsePublicKey (fun _ k => k == 7)
        (goJoinHostPort scopeC10.ClientHostname scopeC10.ClientPort) [[9]] ∧
    (checkChallenge checkEnvC10 scopeC10 chalC10).1 = chalC10 := by
  have h := challenge_parse_skip checkEnvC10 scopeC10 chalC10
    (fun _ k => k == 7) [] [[9]] rfl
  exact ⟨h.1 rfl, h.2.2 (by decide)⟩

end GuardianAgent
